import Mathlib

/-
A verification development for the `lightrag-service` FastAPI module
(src/lightrag-service/main.py together with src/lightrag-service/config.py).

The service keeps two process-wide mutable dictionaries, `rag_instances`
(knowledge-base id -> retrieval-engine handle) and `indexing_tasks`
(knowledge-base id -> job record), plus per-kb storage directories on disk.
We embed this state shallowly: python dicts become insertion-ordered
association lists (assignment to an existing key keeps its position, as in
python), the filesystem becomes the list of existing storage directories,
and the side effects of engine construction and ingestion are recorded in
an explicit event log.  Engine handles are numbered by a counter so that
handle identity is observable.  Job progress is a rational number (the
python floats here are exact small fractions).
-/

namespace LightragService

/-- A key-value entry list with python-dict semantics: `lookup` finds the
first (unique) binding, `setKey` overwrites in place or appends. -/
def lookup {α : Type} : List (String × α) → String → Option α
  | [], _ => none
  | p :: m, k => if p.1 = k then some p.2 else lookup m k

def hasKey {α : Type} : List (String × α) → String → Bool
  | [], _ => false
  | p :: m, k => if p.1 = k then true else hasKey m k

def setKey {α : Type} (m : List (String × α)) (k : String) (v : α) :
    List (String × α) :=
  if hasKey m k then m.map (fun p => if p.1 = k then (k, v) else p)
  else m ++ [(k, v)]

def updateKey {α : Type} (m : List (String × α)) (k : String) (f : α → α) :
    List (String × α) :=
  m.map (fun p => if p.1 = k then (k, f p.2) else p)

def removeKey {α : Type} (m : List (String × α)) (k : String) :
    List (String × α) :=
  m.filter (fun p => decide (p.1 ≠ k))

def hasDir : List String → String → Bool
  | [], _ => false
  | d :: ds, p => if d = p then true else hasDir ds p

def addDir (dirs : List String) (p : String) : List String :=
  if hasDir dirs p then dirs else dirs ++ [p]

def removeDir (dirs : List String) (p : String) : List String :=
  dirs.filter (fun d => decide (d ≠ p))

/-- config.py: module-level names it defines (its recognized options). -/
def configDefinedNames : List String :=
  ["OPENAI_API_KEY", "OPENAI_API_BASE", "OPENAI_MODEL",
   "LIGHTRAG_STORAGE_DIR", "SERVICE_HOST", "SERVICE_PORT", "LOG_LEVEL"]

/-- main.py lines 17-27: the names `from config import (...)` requires. -/
def mainConfigImportNames : List String :=
  ["OPENAI_API_KEY", "OPENAI_API_BASE", "OPENAI_MODEL",
   "LIGHTRAG_STORAGE_DIR", "SERVICE_HOST", "SERVICE_PORT", "LOG_LEVEL",
   "INDEX_DELAY_SECONDS", "LLM_CONCURRENCY"]

/-- A python `from config import a, b, ...` succeeds iff every requested
name is bound at module level in config. -/
def mainConfigImportOk : Bool :=
  mainConfigImportNames.all (fun n => configDefinedNames.contains n)

/-- config.py: `LIGHTRAG_STORAGE_DIR` default value. -/
def LIGHTRAG_STORAGE_DIR : String := "./lightrag-data"

/-- main.py `get_storage_path`: `os.path.join(LIGHTRAG_STORAGE_DIR, f"kb_{kb_id}")`. -/
def get_storage_path (kb_id : String) : String :=
  LIGHTRAG_STORAGE_DIR ++ "/kb_" ++ kb_id

/-- A submitted document `{"id": ..., "name": ..., "content": ...}`;
`name`/`content` may be missing (python `doc.get`). -/
structure Doc where
  name : Option String
  content : Option String
deriving Repr, DecidableEq

/-- python `doc.get("content", "")`. -/
def docContent (d : Doc) : String := d.content.getD ""

/-- python `doc.get("name", f"doc_{i}")`. -/
def docName (i : Nat) (d : Doc) : String := d.name.getD ("doc_" ++ toString i)

/-- main.py line 319: `f"【文档: {name}】\n\n{content}"`. -/
def textWithMeta (i : Nat) (d : Doc) : String :=
  "【文档: " ++ docName i d ++ "】\n\n" ++ docContent d

/-- One entry of the `indexing_tasks` dict. -/
structure IndexJob where
  status : String
  progress : Rat
  message : String
  total : Nat
  completed : Nat
deriving Repr, DecidableEq

/-- Side effects performed against the filesystem / the LightRAG engine,
recorded in order. -/
structure Event where
  kind : String
  arg : String
deriving Repr, DecidableEq

def makedirsEvent (path : String) : Event := ⟨"makedirs", path⟩
def initStoragesEvent (kb : String) : Event := ⟨"initialize_storages", kb⟩
def initPipelineEvent (kb : String) : Event := ⟨"initialize_pipeline_status", kb⟩
def ainsertEvent (kb text : String) : Event := ⟨"ainsert " ++ kb, text⟩

/-- The process-wide mutable state of main.py: the `rag_instances` cache
(handles numbered by `nextHandle`), the `indexing_tasks` map, the set of
storage directories existing on disk, and the log of side effects. -/
structure ServiceState where
  rag_instances : List (String × Nat)
  indexing_tasks : List (String × IndexJob)
  storage_dirs : List String
  nextHandle : Nat
  events : List Event
deriving Repr, DecidableEq

def initialState : ServiceState := ⟨[], [], [], 0, []⟩

/-- main.py `get_or_create_rag` (success path): return a cached handle
immediately; otherwise create the storage directory, construct the engine,
run the one-time storage/pipeline initialization, cache the handle. -/
def get_or_create_rag (kb_id : String) (s : ServiceState) : Nat × ServiceState :=
  match lookup s.rag_instances kb_id with
  | some h => (h, s)
  | none =>
    let path := get_storage_path kb_id
    let h := s.nextHandle
    (h, { s with
      rag_instances := setKey s.rag_instances kb_id h
      storage_dirs := addDir s.storage_dirs path
      nextHandle := h + 1
      events := s.events ++
        [makedirsEvent path, initStoragesEvent kb_id, initPipelineEvent kb_id] })

inductive IndexResponseStatus where
  | error400
  | already_indexing
  | accepted
deriving Repr, DecidableEq

structure IndexResult where
  response : IndexResponseStatus
  state : ServiceState
  scheduled : Bool
deriving Repr, DecidableEq

/-- main.py `index_documents` (POST /index): reject empty document lists;
answer `already_indexing` when the job record's status is `"indexing"`;
otherwise (over)write a fresh `pending` record and schedule the background
pipeline (`scheduled` records whether `background_tasks.add_task` ran). -/
def index_documents (kb_id : String) (documents : List Doc) (s : ServiceState) :
    IndexResult :=
  if documents.isEmpty then ⟨.error400, s, false⟩
  else
    let blocked :=
      match lookup s.indexing_tasks kb_id with
      | some job => decide (job.status = "indexing")
      | none => false
    if blocked then ⟨.already_indexing, s, false⟩
    else
      ⟨.accepted,
       { s with indexing_tasks := (setKey s.indexing_tasks kb_id
           ⟨"pending", 0, "Starting indexing...", documents.length, 0⟩) },
       true⟩

/-- Which step of the background pipeline raises, if any: the engine
acquisition (`failAcquire`) or the `ainsert` of the document at a given
index (`failInsert`), with the exception's text. -/
inductive RunOutcome where
  | noFail
  | failAcquire (msg : String)
  | failInsert (j : Nat) (msg : String)
deriving Repr, DecidableEq

def insertFailure (oracle : RunOutcome) (i : Nat) : Option String :=
  match oracle with
  | .failInsert j msg => if j = i then some msg else none
  | _ => none

/-- main.py lines 311-336, the per-document loop of `index_documents_task`:
skip empty-content documents without touching the counters, otherwise ingest
(`rag.ainsert`) and then set `completed = i+1`, `progress = (i+1)/total` and
the per-document message.  Returns the exception text if `ainsert` raised. -/
def processDocs (kb_id : String) (total : Nat) (oracle : RunOutcome) :
    List Doc → Nat → ServiceState → ServiceState × Option String
  | [], _, s => (s, none)
  | d :: ds, i, s =>
    if docContent d = "" then
      processDocs kb_id total oracle ds (i + 1) s
    else
      match insertFailure oracle i with
      | some msg => (s, some msg)
      | none =>
        let s1 := { s with events := s.events ++ [ainsertEvent kb_id (textWithMeta i d)] }
        let s2 := { s1 with indexing_tasks := (updateKey s1.indexing_tasks kb_id
          (fun job => { job with
            completed := i + 1
            progress := ((i : Rat) + 1) / (total : Rat)
            message := "Indexed " ++ toString (i + 1) ++ "/" ++ toString total
              ++ ": " ++ docName i d })) }
        processDocs kb_id total oracle ds (i + 1) s2

/-- main.py lines 301-302: the pipeline first marks the job `indexing`. -/
def markIndexing (kb_id : String) (s : ServiceState) : ServiceState :=
  { s with indexing_tasks := (updateKey s.indexing_tasks kb_id
      (fun job => { job with status := "indexing",
                             message := "Creating knowledge graph..." })) }

/-- main.py lines 343-346, the `except` handler: set `status = "failed"` and
`message` = the exception's text, leaving every other field alone. -/
def setFailed (kb_id : String) (msg : String) (s : ServiceState) : ServiceState :=
  { s with indexing_tasks := (updateKey s.indexing_tasks kb_id
      (fun job => { job with status := "failed", message := msg })) }

/-- main.py `index_documents_task`: mark `indexing`, acquire the engine,
run the per-document loop, then either record success
(`completed`/`progress = 1.0`/summary message) or, on an exception anywhere
in the try block, run the `except` handler. -/
def index_documents_task (kb_id : String) (documents : List Doc)
    (oracle : RunOutcome) (s : ServiceState) : ServiceState :=
  let s1 := markIndexing kb_id s
  match oracle with
  | .failAcquire msg => setFailed kb_id msg s1
  | _ =>
    let s2 := (get_or_create_rag kb_id s1).2
    let total := documents.length
    match processDocs kb_id total oracle documents 0 s2 with
    | (s3, some msg) => setFailed kb_id msg s3
    | (s3, none) =>
      { s3 with indexing_tasks := (updateKey s3.indexing_tasks kb_id
          (fun job => { job with
            status := "completed"
            progress := 1
            message := "Successfully indexed " ++ toString total ++ " documents" })) }

/-- The state reached when the pipeline has marked the job, acquired the
engine, and successfully processed exactly the first `k` documents. -/
def runUpTo (kb_id : String) (documents : List Doc) (k : Nat)
    (s : ServiceState) : ServiceState :=
  let s1 := markIndexing kb_id s
  let s2 := (get_or_create_rag kb_id s1).2
  (processDocs kb_id documents.length RunOutcome.noFail (documents.take k) 0 s2).1

/-- What GET /index/{kb_id}/status returns.  The in-memory branch carries
the record's `total`/`completed`; the synthesized branches do not. -/
structure StatusResponse where
  kb_id : String
  status : String
  progress : Rat
  message : String
  total : Option Nat
  completed : Option Nat
deriving Repr, DecidableEq

/-- main.py `get_index_status`: in-memory record verbatim, else reconcile
against the on-disk directory, else `not_found`. -/
def get_index_status (kb_id : String) (s : ServiceState) : StatusResponse :=
  match lookup s.indexing_tasks kb_id with
  | some job =>
    ⟨kb_id, job.status, job.progress, job.message, some job.total, some job.completed⟩
  | none =>
    if hasDir s.storage_dirs (get_storage_path kb_id) then
      ⟨kb_id, "completed", 1, "Index exists", none, none⟩
    else
      ⟨kb_id, "not_found", 0, "No indexing task found", none, none⟩

inductive DeleteStatus where
  | deleted
  | not_found
deriving Repr, DecidableEq

/-- main.py `delete_index` (DELETE /index/{kb_id}): evict the engine-handle
cache entry and the job record, then remove the storage directory if it
exists. -/
def delete_index (kb_id : String) (s : ServiceState) : DeleteStatus × ServiceState :=
  let path := get_storage_path kb_id
  let s1 := { s with
    rag_instances := removeKey s.rag_instances kb_id
    indexing_tasks := removeKey s.indexing_tasks kb_id }
  if hasDir s1.storage_dirs path then
    (.deleted, { s1 with storage_dirs := removeDir s1.storage_dirs path })
  else
    (.not_found, s1)

/-- Every cached handle was issued by the counter (true of every state the
service actually reaches, since handles only come from `get_or_create_rag`). -/
def handlesBounded (s : ServiceState) : Bool :=
  s.rag_instances.all (fun p => p.2 < s.nextHandle)

/-- A `<node>` of the GraphML file: its `id` attribute and its `<data>`
children as (key attribute, element text) pairs; a missing text is `none`
(python `data.text or ""`). -/
structure GraphMLNode where
  id : String
  data : List (String × Option String)
deriving Repr, DecidableEq

/-- An `<edge>` of the GraphML file: `source`/`target` attributes and its
`<data>` children. -/
structure GraphMLEdge where
  source : String
  target : String
  data : List (String × Option String)
deriving Repr, DecidableEq

/-- The `<graph>` element of `graph_chunk_entity_relation.graphml`. -/
structure GraphMLFile where
  nodes : List GraphMLNode
  edges : List GraphMLEdge
deriving Repr, DecidableEq

/-- The persisted storage of one knowledge base, as GET /graph/{kb_id}
can observe it: whether the directory exists, the GraphML file if present,
and the flat key-value files (per-document entity-name lists and relation
pairs) that the specification also mentions. -/
structure KBStorage where
  dirExists : Bool
  graphml : Option GraphMLFile
  kvEntityLists : List (List String)
  kvRelationLists : List (List (String × String))
deriving Repr, DecidableEq

structure Entity where
  id : String
  name : String
  type : String
  description : String
deriving Repr, DecidableEq

structure Relation where
  source : String
  target : String
  type : String
  description : String
deriving Repr, DecidableEq

/-- python `str.strip()`: drop leading and trailing whitespace. -/
def pyStrip (s : String) : String :=
  ⟨((s.data.dropWhile Char.isWhitespace).reverse.dropWhile Char.isWhitespace).reverse⟩

/-- python `str.upper()` (the entity types here are ASCII). -/
def pyUpper (s : String) : String := ⟨s.data.map Char.toUpper⟩

/-- python `(data.text or "").strip()`. -/
def dataText (t : Option String) : String := pyStrip (t.getD "")

/-- main.py lines 520-532: fold the node's `<data>` entries into
(entity type, description), starting from ("ENTITY", ""). -/
def parseNodeAttrs (l : List (String × Option String)) : String × String :=
  l.foldl
    (fun acc kv =>
      let text := dataText kv.2
      if kv.1 = "entity_type" ∨ kv.1 = "d0" then
        (if text = "" then "ENTITY" else pyUpper text, acc.2)
      else if kv.1 = "description" ∨ kv.1 = "d1" then
        (acc.1, text)
      else acc)
    ("ENTITY", "")

/-- main.py lines 553-565: fold the edge's `<data>` entries into
(relation type, description), starting from ("RELATED", ""); an empty
relation-type text does not override the default. -/
def parseEdgeAttrs (l : List (String × Option String)) : String × String :=
  l.foldl
    (fun acc kv =>
      let text := dataText kv.2
      if (kv.1 = "relation_type" ∨ kv.1 = "d2" ∨ kv.1 = "d4") ∧ text ≠ "" then
        (text, acc.2)
      else if kv.1 = "description" ∨ kv.1 = "d3" ∨ kv.1 = "d5" then
        (acc.1, text)
      else acc)
    ("RELATED", "")

/-- main.py lines 515-539: one step of filling `entity_map` (a python dict
keyed by node id — assignment keeps the first-insertion position). -/
def entityMapStep (m : List (String × Entity)) (node : GraphMLNode) :
    List (String × Entity) :=
  if node.id = "" then m
  else
    let a := parseNodeAttrs node.data
    setKey m node.id ⟨node.id, node.id, a.1, a.2⟩

def entityMap (nodes : List GraphMLNode) : List (String × Entity) :=
  nodes.foldl entityMapStep []

/-- main.py line 576: `entities = list(entity_map.values())`. -/
def parseEntities (f : GraphMLFile) : List Entity :=
  (entityMap f.nodes).map (fun p => p.2)

/-- main.py lines 546-574: every edge with both endpoints present becomes
one relation, in order, without deduplication. -/
def parseRelations : List GraphMLEdge → List Relation
  | [] => []
  | e :: es =>
    if e.source = "" ∨ e.target = "" then parseRelations es
    else
      let a := parseEdgeAttrs e.data
      ⟨e.source, e.target, a.1, a.2⟩ :: parseRelations es

structure GraphResponse where
  kb_id : String
  entities : List Entity
  relations : List Relation
  message : Option String
  entity_count : Nat
  relation_count : Nat
deriving Repr, DecidableEq

def notBuiltMessage : String := "知识图谱尚未构建，请先点击「构建知识图谱」按钮"

def buildingMessage : String :=
  "知识图谱正在构建中或构建失败。请稍后刷新重试，或重新点击「构建知识图谱」按钮。"

/-- main.py `get_graph` (GET /graph/{kb_id}?limit=100): empty response when
the directory is missing; otherwise parse the GraphML file when present
(this is the only persisted representation the code reads); empty "still
building" response when that yields nothing; otherwise truncate both lists
to `limit` and report the truncated lengths as stats. -/
def get_graph (kb_id : String) (limit : Nat) (st : KBStorage) : GraphResponse :=
  if st.dirExists = false then
    ⟨kb_id, [], [], some notBuiltMessage, 0, 0⟩
  else
    let parsed :=
      match st.graphml with
      | some f => (parseEntities f, parseRelations f.edges)
      | none => ([], [])
    if parsed.1.isEmpty ∧ parsed.2.isEmpty then
      ⟨kb_id, [], [], some buildingMessage, 0, 0⟩
    else
      let entities := parsed.1.take limit
      let relations := parsed.2.take limit
      ⟨kb_id, entities, relations, none, entities.length, relations.length⟩

/- ===== Helper lemmas about the dict / directory model ===== -/

lemma lookup_map_set {α : Type} (m : List (String × α)) (k : String) (v : α)
    (h : hasKey m k = true) :
    lookup (m.map (fun p => if p.1 = k then (k, v) else p)) k = some v := by
  induction m with
  | nil => simp [hasKey] at h
  | cons p m ih =>
    by_cases hp : p.1 = k
    · simp [lookup, hp]
    · simp only [List.map_cons, if_neg hp, lookup, if_neg hp]
      exact ih (by simpa [hasKey, if_neg hp] using h)

lemma lookup_append_single {α : Type} (m : List (String × α)) (k : String) (v : α)
    (h : hasKey m k = false) :
    lookup (m ++ [(k, v)]) k = some v := by
  induction m with
  | nil => simp [lookup]
  | cons p m ih =>
    by_cases hp : p.1 = k
    · simp [hasKey, hp] at h
    · simp only [List.cons_append, lookup, if_neg hp]
      exact ih (by simpa [hasKey, if_neg hp] using h)

lemma lookup_setKey_self {α : Type} (m : List (String × α)) (k : String) (v : α) :
    lookup (setKey m k v) k = some v := by
  unfold setKey
  by_cases h : hasKey m k
  · rw [if_pos h]; exact lookup_map_set m k v h
  · rw [if_neg h]; exact lookup_append_single m k v (by simpa using h)

lemma lookup_updateKey_self {α : Type} (m : List (String × α)) (k : String)
    (f : α → α) : lookup (updateKey m k f) k = (lookup m k).map f := by
  induction m with
  | nil => simp [updateKey, lookup]
  | cons p m ih =>
    by_cases hp : p.1 = k
    · simp [updateKey, lookup, hp]
    · simpa [updateKey, lookup, if_neg hp] using ih

lemma lookup_removeKey_self {α : Type} (m : List (String × α)) (k : String) :
    lookup (removeKey m k) k = none := by
  induction m with
  | nil => simp [removeKey, lookup]
  | cons p m ih =>
    by_cases hp : p.1 = k
    · simpa [removeKey, hp] using ih
    · simpa [removeKey, List.filter_cons, hp, lookup] using ih

lemma lookup_mem {α : Type} {m : List (String × α)} {k : String} {v : α}
    (h : lookup m k = some v) : (k, v) ∈ m := by
  induction m with
  | nil => simp [lookup] at h
  | cons p m ih =>
    by_cases hp : p.1 = k
    · simp only [lookup, if_pos hp] at h
      have hp2 : (k, v) = p := by cases p; cases h; simp_all
      rw [hp2]
      exact List.mem_cons_self _ _
    · simp only [lookup, if_neg hp] at h
      exact List.mem_cons_of_mem _ (ih h)

lemma hasDir_removeDir_self (ds : List String) (p : String) :
    hasDir (removeDir ds p) p = false := by
  induction ds with
  | nil => simp [removeDir, hasDir]
  | cons d ds ih =>
    by_cases hd : d = p
    · simpa [removeDir, hd] using ih
    · simpa [removeDir, List.filter_cons, hd, hasDir] using ih

/- ===== Helper lemmas about the indexing pipeline ===== -/

lemma index_documents_scheduled {kb : String} {docs : List Doc} {s : ServiceState}
    (h : (index_documents kb docs s).scheduled = true) :
    docs ≠ [] ∧
    (index_documents kb docs s).state.indexing_tasks =
      setKey s.indexing_tasks kb ⟨"pending", 0, "Starting indexing...", docs.length, 0⟩ := by
  unfold index_documents at h ⊢
  by_cases he : docs.isEmpty
  · rw [if_pos he] at h
    simp at h
  · rw [if_neg he] at h ⊢
    refine ⟨by simpa [List.isEmpty_iff] using he, ?_⟩
    cases hl : lookup s.indexing_tasks kb with
    | none => simp [hl]
    | some job =>
      by_cases hs : job.status = "indexing"
      · simp [hl, hs] at h
      · simp [hl, hs]

lemma get_or_create_tasks_eq (kb : String) (s : ServiceState) :
    (get_or_create_rag kb s).2.indexing_tasks = s.indexing_tasks := by
  unfold get_or_create_rag
  cases lookup s.rag_instances kb <;> rfl

lemma get_or_create_dirs (kb : String) (s : ServiceState) :
    (get_or_create_rag kb s).2.storage_dirs = s.storage_dirs ∨
    (get_or_create_rag kb s).2.storage_dirs = addDir s.storage_dirs (get_storage_path kb) := by
  unfold get_or_create_rag
  cases lookup s.rag_instances kb
  · right; rfl
  · left; rfl

lemma processDocs_noFail_spec (kb : String) (tot : Nat) :
    ∀ (ds : List Doc) (i : Nat) (s : ServiceState) (job : IndexJob),
    lookup s.indexing_tasks kb = some job →
    (∀ d ∈ ds, docContent d ≠ "") →
    (processDocs kb tot RunOutcome.noFail ds i s).2 = none ∧
    ∃ job', lookup (processDocs kb tot RunOutcome.noFail ds i s).1.indexing_tasks kb = some job'
      ∧ job'.status = job.status ∧ job'.total = job.total
      ∧ job'.completed = (if ds.isEmpty then job.completed else i + ds.length) := by
  intro ds
  induction ds with
  | nil =>
    intro i s job hj _
    refine ⟨rfl, job, hj, rfl, rfl, by simp⟩
  | cons d ds ih =>
    intro i s job hj hne
    have hd : docContent d ≠ "" := hne d (List.mem_cons_self _ _)
    have hne' : ∀ d' ∈ ds, docContent d' ≠ "" :=
      fun d' hd' => hne d' (List.mem_cons_of_mem _ hd')
    simp only [processDocs, if_neg hd, insertFailure]
    have hj2 : lookup (updateKey s.indexing_tasks kb (fun job : IndexJob =>
        { job with
          completed := i + 1
          progress := ((i : Rat) + 1) / (tot : Rat)
          message := "Indexed " ++ toString (i + 1) ++ "/" ++ toString tot
            ++ ": " ++ docName i d })) kb = some { job with
          completed := i + 1
          progress := ((i : Rat) + 1) / (tot : Rat)
          message := "Indexed " ++ toString (i + 1) ++ "/" ++ toString tot
            ++ ": " ++ docName i d } := by
      rw [lookup_updateKey_self, hj]; rfl
    obtain ⟨hexc, job', hj', hst, htot, hcomp⟩ :=
      ih (i + 1)
        { s with
          events := s.events ++ [ainsertEvent kb (textWithMeta i d)]
          indexing_tasks := updateKey s.indexing_tasks kb (fun job : IndexJob =>
            { job with
              completed := i + 1
              progress := ((i : Rat) + 1) / (tot : Rat)
              message := "Indexed " ++ toString (i + 1) ++ "/" ++ toString tot
                ++ ": " ++ docName i d }) }
        _ hj2 hne'
    refine ⟨hexc, job', hj', hst, htot, ?_⟩
    rcases ds with _ | ⟨e, es⟩
    · simpa using hcomp
    · simp only [List.isEmpty_cons, List.length_cons] at hcomp ⊢
      simp at hcomp ⊢
      omega

/-- With a failure injected at the ainsert of (reachable) document index
`j`, the loop behaves exactly like a clean run over the first `j - i`
documents and then reports the exception. -/
lemma processDocs_failInsert_eq (kb : String) (tot j : Nat) (msg : String) :
    ∀ (ds : List Doc) (i : Nat) (s : ServiceState) (hij : i ≤ j)
      (hj : j - i < ds.length),
    docContent (ds.get ⟨j - i, hj⟩) ≠ "" →
    processDocs kb tot (RunOutcome.failInsert j msg) ds i s =
      ((processDocs kb tot RunOutcome.noFail (ds.take (j - i)) i s).1, some msg) := by
  intro ds
  induction ds with
  | nil =>
    intro i s _ hj
    simp at hj
  | cons d ds ih =>
    intro i s hij hj hne
    by_cases hji : j = i
    · subst hji
      have hfin : (⟨j - j, hj⟩ : Fin (d :: ds).length) =
          ⟨0, by simp⟩ := Fin.ext (show j - j = 0 by omega)
      rw [hfin] at hne
      have hdne : docContent d ≠ "" := hne
      rw [show j - j = 0 from by omega]
      simp [processDocs, if_neg hdne, insertFailure]
    · have hlt : i < j := by omega
      have hj' : j - (i + 1) < ds.length := by
        simp only [List.length_cons] at hj
        omega
      have hfin : (⟨j - i, hj⟩ : Fin (d :: ds).length) =
          ⟨(j - (i + 1)) + 1, by simp only [List.length_cons]; omega⟩ :=
        Fin.ext (show j - i = (j - (i + 1)) + 1 by omega)
      rw [hfin] at hne
      have hne' : docContent (ds.get ⟨j - (i + 1), hj'⟩) ≠ "" := hne
      rw [show j - i = (j - (i + 1)) + 1 from by omega, List.take_succ_cons]
      by_cases hd : docContent d = ""
      · simp only [processDocs, if_pos hd]
        exact ih (i + 1) s (by omega) hj' hne'
      · simp only [processDocs, if_neg hd, insertFailure, if_neg hji]
        exact ih (i + 1) _ (by omega) hj' hne'

/- ===== Helper lemmas about the graph reader ===== -/

lemma map_congr_mem {α β : Type} (l : List α) (f g : α → β)
    (h : ∀ a ∈ l, f a = g a) : l.map f = l.map g := by
  induction l with
  | nil => rfl
  | cons a l ih =>
    simp only [List.map_cons]
    rw [h a (List.mem_cons_self _ _), ih (fun a ha => h a (List.mem_cons_of_mem _ ha))]

lemma hasKey_iff {α : Type} (m : List (String × α)) (k : String) :
    hasKey m k = true ↔ k ∈ m.map (fun p => p.1) := by
  induction m with
  | nil => simp [hasKey]
  | cons p m ih =>
    by_cases hp : p.1 = k
    · simp [hasKey, hp]
    · simp only [hasKey, if_neg hp, List.map_cons, List.mem_cons]
      rw [ih]
      constructor
      · exact fun h => Or.inr h
      · rintro (h | h)
        · exact absurd h.symm hp
        · exact h

lemma keys_setKey {α : Type} (m : List (String × α)) (k : String) (v : α) :
    (setKey m k v).map (fun p => p.1) =
      if hasKey m k then m.map (fun p => p.1) else m.map (fun p => p.1) ++ [k] := by
  unfold setKey
  split
  · rw [List.map_map]
    refine map_congr_mem _ _ _ (fun p _ => ?_)
    simp only [Function.comp]
    split
    · simp_all
    · rfl
  · simp

lemma mem_keys_setKey {α : Type} (m : List (String × α)) (k : String) (v : α)
    (k0 : String) :
    (k0 ∈ (setKey m k v).map (fun p => p.1)) ↔
      (k0 ∈ m.map (fun p => p.1) ∨ k0 = k) := by
  rw [keys_setKey]
  split
  · rename_i h
    rw [hasKey_iff] at h
    constructor
    · exact fun h0 => Or.inl h0
    · rintro (h0 | rfl)
      · exact h0
      · exact h
  · simp [List.mem_append]

lemma nodup_keys_setKey {α : Type} (m : List (String × α)) (k : String) (v : α)
    (h : (m.map (fun p => p.1)).Nodup) :
    ((setKey m k v).map (fun p => p.1)).Nodup := by
  rw [keys_setKey]
  split
  · exact h
  · rename_i hk
    have hk' : k ∉ m.map (fun p => p.1) := by
      rw [← hasKey_iff]
      exact hk
    simp [List.nodup_append, h, hk']

lemma mem_setKey {α : Type} (m : List (String × α)) (k : String) (v : α)
    (q : String × α) (h : q ∈ setKey m k v) : q = (k, v) ∨ q ∈ m := by
  unfold setKey at h
  split at h
  · obtain ⟨p, hp, he⟩ := List.mem_map.mp h
    by_cases hpk : p.1 = k
    · rw [if_pos hpk] at he
      exact Or.inl he.symm
    · rw [if_neg hpk] at he
      exact Or.inr (he ▸ hp)
  · rcases List.mem_append.mp h with h | h
    · exact Or.inr h
    · exact Or.inl (List.mem_singleton.mp h)

lemma entityMap_foldl_nodup (nodes : List GraphMLNode) :
    ∀ m : List (String × Entity), (m.map (fun p => p.1)).Nodup →
    ((nodes.foldl entityMapStep m).map (fun p => p.1)).Nodup := by
  induction nodes with
  | nil => exact fun m h => h
  | cons n ns ih =>
    intro m h
    rw [List.foldl_cons]
    refine ih _ ?_
    unfold entityMapStep
    split
    · exact h
    · exact nodup_keys_setKey _ _ _ h

lemma entityMap_foldl_mem (nodes : List GraphMLNode) :
    ∀ (m : List (String × Entity)) (k0 : String),
    (k0 ∈ (nodes.foldl entityMapStep m).map (fun p => p.1)) ↔
      (k0 ∈ m.map (fun p => p.1) ∨
        (k0 ≠ "" ∧ k0 ∈ nodes.map (fun n => n.id))) := by
  induction nodes with
  | nil =>
    intro m k0
    simp
  | cons n ns ih =>
    intro m k0
    rw [List.foldl_cons, ih]
    by_cases hid : n.id = ""
    · simp only [entityMapStep, if_pos hid, List.map_cons, List.mem_cons]
      constructor
      · rintro (h | ⟨hne, hmem⟩)
        · exact Or.inl h
        · exact Or.inr ⟨hne, Or.inr hmem⟩
      · rintro (h | ⟨hne, (rfl | hmem)⟩)
        · exact Or.inl h
        · exact absurd hid hne
        · exact Or.inr ⟨hne, hmem⟩
    · simp only [entityMapStep, if_neg hid, List.map_cons, List.mem_cons]
      rw [mem_keys_setKey]
      constructor
      · rintro ((h | rfl) | ⟨hne, hmem⟩)
        · exact Or.inl h
        · exact Or.inr ⟨hid, Or.inl rfl⟩
        · exact Or.inr ⟨hne, Or.inr hmem⟩
      · rintro (h | ⟨hne, (h1 | h2)⟩)
        · exact Or.inl (Or.inl h)
        · exact Or.inl (Or.inr h1)
        · exact Or.inr ⟨hne, h2⟩

lemma entityMap_foldl_entry (nodes : List GraphMLNode) :
    ∀ m : List (String × Entity), (∀ q ∈ m, (q.2).id = q.1) →
    ∀ q ∈ nodes.foldl entityMapStep m, (q.2).id = q.1 := by
  induction nodes with
  | nil => exact fun m h => h
  | cons n ns ih =>
    intro m h
    rw [List.foldl_cons]
    refine ih _ ?_
    intro q hq
    unfold entityMapStep at hq
    split at hq
    · exact h q hq
    · rcases mem_setKey _ _ _ _ hq with rfl | hq
      · rfl
      · exact h q hq

lemma parseEntities_ids (f : GraphMLFile) :
    (parseEntities f).map (fun e => e.id) =
      (entityMap f.nodes).map (fun p => p.1) := by
  unfold parseEntities
  rw [List.map_map]
  exact map_congr_mem _ _ _
    (fun q hq => entityMap_foldl_entry f.nodes [] (by simp) q hq)

lemma parseRelations_length (es : List GraphMLEdge) :
    (parseRelations es).length =
      (es.filter (fun e => decide (e.source ≠ "" ∧ e.target ≠ ""))).length := by
  induction es with
  | nil => rfl
  | cons e es ih =>
    by_cases h : e.source = "" ∨ e.target = ""
    · have hb : decide (e.source ≠ "" ∧ e.target ≠ "") = false := by
        rcases h with h | h <;> simp [h]
      rw [List.filter_cons]
      simp only [hb, Bool.false_eq_true, if_false]
      simpa [parseRelations, if_pos h] using ih
    · have hb : decide (e.source ≠ "" ∧ e.target ≠ "") = true := by
        push_neg at h
        simp [h.1, h.2]
      rw [List.filter_cons]
      simp only [hb, if_true]
      simpa [parseRelations, if_neg h] using ih

/- ===== Concrete states and stores used by counterexamples and witnesses ===== -/

/-- A store whose directory exists and which holds only the flat key-value
representation (entity lists across two documents), no GraphML file. -/
def c1store : KBStorage := ⟨true, none, [["X", "Y"], ["Y", "Z"]], []⟩

/-- Two documents, the second with empty content. -/
def c2docs : List Doc := [⟨some "a", some "hello"⟩, ⟨some "b", some ""⟩]

/-- The state after submitting `c2docs` and running the pipeline cleanly. -/
def c2final : ServiceState :=
  index_documents_task "kb1" c2docs RunOutcome.noFail
    (index_documents "kb1" c2docs initialState).state

def c4docs : List Doc := [⟨some "a", some "x"⟩]

/-- The state right after POST /index accepted a job: record is `pending`,
the background task has not started yet. -/
def c4pendingState : ServiceState := (index_documents "kb1" c4docs initialState).state

/-- A state whose job record for kb1 is mid-indexing. -/
def sIndexingExample : ServiceState :=
  ⟨[], [("kb1", ⟨"indexing", 0, "Indexed 1/2: a", 2, 1⟩)], [], 0, []⟩

/-- A state with no job record but an existing storage directory for kb1. -/
def sDirOnlyExample : ServiceState := ⟨[], [], [get_storage_path "kb1"], 0, []⟩

/-- A state holding a cached handle, a finished job record and a storage
directory for kb1. -/
def sFullExample : ServiceState :=
  ⟨[("kb1", 0)], [("kb1", ⟨"completed", 1, "done", 1, 1⟩)],
   [get_storage_path "kb1"], 1, []⟩

/-- The GraphML file of the round-trip example: 3 nodes (types a, b, b, the
third with a description to be stripped) and 2 edges without usable
relation-type attributes. -/
def c9file : GraphMLFile :=
  ⟨[⟨"n1", [("entity_type", some "a")]⟩,
    ⟨"n2", [("d0", some "b")]⟩,
    ⟨"n3", [("entity_type", some "b"), ("description", some " desc ")]⟩],
   [⟨"n1", "n2", []⟩, ⟨"n2", "n3", [("relation_type", some "")]⟩]⟩

def c9store : KBStorage := ⟨true, some c9file, [], []⟩

/- ===== C1 ===== -/

/-- C1 (counterexample): a store containing only the flat key-value format
with entity lists ["X","Y"] and ["Y","Z"] does NOT yield 3 deduplicated
entities from GET /graph/{kb_id} — the endpoint returns zero entities and
the "still building" message, because it never reads the flat key-value
files. -/
theorem c1_kv_counterexample :
    (get_graph "kb1" 100 c1store).entities = []
    ∧ (get_graph "kb1" 100 c1store).message = some buildingMessage
    ∧ ¬((get_graph "kb1" 100 c1store).entities.length = 3) := by
  decide

/-- C1 (amended): GET /graph/{kb_id} reads only the structured-graph
(GraphML) representation.  Its result never depends on the flat key-value
files, and for a knowledge base whose storage directory exists but has no
GraphML file — in particular one holding only the flat key-value format —
it returns zero entities and relations with the "still building" message. -/
theorem c1_graphml_only (kb : String) (limit : Nat) (st : KBStorage)
    (l : List (List String)) (r : List (List (String × String)))
    (hd : st.dirExists = true) (hg : st.graphml = none) :
    get_graph kb limit { st with kvEntityLists := l, kvRelationLists := r }
      = get_graph kb limit st
    ∧ get_graph kb limit st = ⟨kb, [], [], some buildingMessage, 0, 0⟩ := by
  constructor
  · rfl
  · simp [get_graph, hd, hg]

/-- C1 (witness): the amended statement evaluated at the flat-key-value-only
store. -/
theorem c1_graphml_only_witness :
    get_graph "kb1" 100 { c1store with kvEntityLists := [], kvRelationLists := [] }
      = get_graph "kb1" 100 c1store
    ∧ get_graph "kb1" 100 c1store = ⟨"kb1", [], [], some buildingMessage, 0, 0⟩ :=
  c1_graphml_only "kb1" 100 c1store [] [] (by decide) (by decide)

/- ===== C3 ===== -/

/-- C3: config.py does not define INDEX_DELAY_SECONDS or LLM_CONCURRENCY,
yet main.py's `from config import (...)` requires both, so the import
fails — the configuration layer does not actually provide the
per-document indexing delay or the LLM concurrency limit. -/
theorem c3_config_import_mismatch :
    mainConfigImportOk = false
    ∧ configDefinedNames.contains "INDEX_DELAY_SECONDS" = false
    ∧ configDefinedNames.contains "LLM_CONCURRENCY" = false
    ∧ mainConfigImportNames.contains "INDEX_DELAY_SECONDS" = true
    ∧ mainConfigImportNames.contains "LLM_CONCURRENCY" = true := by
  decide

/- ===== C4 ===== -/

/-- C4 (counterexample): a job record in the `pending` state does not block
a further POST /index — the second request schedules another background
pipeline, contradicting the claim that any non-terminal state (pending or
indexing) prevents scheduling. -/
theorem c4_pending_counterexample :
    (lookup c4pendingState.indexing_tasks "kb1").map (fun j => j.status)
      = some "pending"
    ∧ (index_documents "kb1" c4docs c4pendingState).scheduled = true := by
  decide

/-- C4 (amended): only the `indexing` status blocks scheduling: when the
kb's job record has status "indexing", POST /index schedules nothing and
leaves the state alone; for any other recorded status a non-empty request
schedules a (second) background pipeline. -/
theorem c4_schedule_guard (kb : String) (docs : List Doc) (s : ServiceState)
    (job : IndexJob) (h : lookup s.indexing_tasks kb = some job) :
    (job.status = "indexing" →
      (index_documents kb docs s).scheduled = false
      ∧ (index_documents kb docs s).state = s)
    ∧ (job.status ≠ "indexing" → docs ≠ [] →
      (index_documents kb docs s).scheduled = true) := by
  constructor
  · intro hs
    unfold index_documents
    by_cases he : docs.isEmpty
    · rw [if_pos he]
      exact ⟨rfl, rfl⟩
    · rw [if_neg he]
      simp [h, hs]
  · intro hs hd
    have he : docs.isEmpty = false := by simpa [List.isEmpty_iff] using hd
    unfold index_documents
    simp [he, h, hs]

/-- C4 (witness): the amended guard evaluated on a pending record (second
request schedules) and on an indexing record (second request blocked). -/
theorem c4_schedule_guard_witness :
    (index_documents "kb1" c4docs c4pendingState).scheduled = true
    ∧ (index_documents "kb1" c4docs sIndexingExample).scheduled = false :=
  ⟨(c4_schedule_guard "kb1" c4docs c4pendingState
      ⟨"pending", 0, "Starting indexing...", 1, 0⟩ (by decide)).2
      (by decide) (by decide),
   ((c4_schedule_guard "kb1" c4docs sIndexingExample
      ⟨"indexing", 0, "Indexed 1/2: a", 2, 1⟩ (by decide)).1 rfl).1⟩

/- ===== C6 ===== -/

/-- C6: POST /index for a kb whose job record has status "indexing" returns
the already_indexing response, schedules nothing and leaves the state —
and hence the job record with its progress and completed fields — entirely
unchanged. -/
theorem c6_already_indexing (kb : String) (docs : List Doc) (s : ServiceState)
    (job : IndexJob) (hd : docs ≠ [])
    (h : lookup s.indexing_tasks kb = some job) (hs : job.status = "indexing") :
    index_documents kb docs s = ⟨.already_indexing, s, false⟩ := by
  have he : docs.isEmpty = false := by simpa [List.isEmpty_iff] using hd
  unfold index_documents
  simp [he, h, hs]

/-- C6 (witness): the already_indexing response on a concrete mid-indexing
state. -/
theorem c6_already_indexing_witness :
    index_documents "kb1" c4docs sIndexingExample
      = ⟨IndexResponseStatus.already_indexing, sIndexingExample, false⟩ :=
  c6_already_indexing "kb1" c4docs sIndexingExample
    ⟨"indexing", 0, "Indexed 1/2: a", 2, 1⟩ (by decide) (by decide) rfl

/- ===== C5 ===== -/

lemma get_or_create_cached (kb : String) (s : ServiceState) (h0 : Nat)
    (h : lookup s.rag_instances kb = some h0) :
    get_or_create_rag kb s = (h0, s) := by
  unfold get_or_create_rag
  rw [h]

lemma get_or_create_lookup_after (kb : String) (s : ServiceState) :
    lookup (get_or_create_rag kb s).2.rag_instances kb
      = some (get_or_create_rag kb s).1 := by
  unfold get_or_create_rag
  cases hl : lookup s.rag_instances kb with
  | some h0 =>
    dsimp
    exact hl
  | none =>
    dsimp
    exact lookup_setKey_self _ _ _

/-- C5: `get_or_create_rag` is idempotent: a second sequential call for the
same kb id returns the same handle identity and the very same state (so no
further directory creation, storage initialization or pipeline
initialization happens); a cached id returns immediately with no side
effects, and an uncached id performs the directory creation and the two
one-time initialization steps exactly once. -/
theorem c5_get_or_create_idempotent (kb : String) (s : ServiceState) :
    (get_or_create_rag kb (get_or_create_rag kb s).2).1
      = (get_or_create_rag kb s).1
    ∧ (get_or_create_rag kb (get_or_create_rag kb s).2).2
      = (get_or_create_rag kb s).2
    ∧ (∀ h0, lookup s.rag_instances kb = some h0 →
        get_or_create_rag kb s = (h0, s))
    ∧ (lookup s.rag_instances kb = none →
        (get_or_create_rag kb s).2.events = s.events ++
          [makedirsEvent (get_storage_path kb), initStoragesEvent kb,
           initPipelineEvent kb]) := by
  have hsecond := get_or_create_cached kb (get_or_create_rag kb s).2
    (get_or_create_rag kb s).1 (get_or_create_lookup_after kb s)
  refine ⟨by rw [hsecond], by rw [hsecond], ?_, ?_⟩
  · exact fun h0 hh => get_or_create_cached kb s h0 hh
  · intro hn
    unfold get_or_create_rag
    rw [hn]

/-- C5 (witness): both calls on a fresh state return handle 0, the second
changes nothing, and the creation events are logged once. -/
theorem c5_get_or_create_idempotent_witness :
    (get_or_create_rag "kbw" (get_or_create_rag "kbw" initialState).2).1
      = (get_or_create_rag "kbw" initialState).1
    ∧ (get_or_create_rag "kbw" initialState).2.events = initialState.events ++
        [makedirsEvent (get_storage_path "kbw"), initStoragesEvent "kbw",
         initPipelineEvent "kbw"] :=
  ⟨(c5_get_or_create_idempotent "kbw" initialState).1,
   (c5_get_or_create_idempotent "kbw" initialState).2.2.2 (by decide)⟩

/- ===== C7 ===== -/

/-- C7: GET /index/{kb_id}/status returns the in-memory job record verbatim
when one exists; otherwise it synthesizes completed/1.0/"Index exists" when
the storage directory exists on disk, and not_found/0.0 when it does not. -/
theorem c7_status_reconciliation (kb : String) (s : ServiceState) :
    (∀ job, lookup s.indexing_tasks kb = some job →
      get_index_status kb s =
        ⟨kb, job.status, job.progress, job.message, some job.total,
         some job.completed⟩)
    ∧ (lookup s.indexing_tasks kb = none →
        hasDir s.storage_dirs (get_storage_path kb) = true →
        get_index_status kb s = ⟨kb, "completed", 1, "Index exists", none, none⟩)
    ∧ (lookup s.indexing_tasks kb = none →
        hasDir s.storage_dirs (get_storage_path kb) = false →
        get_index_status kb s =
          ⟨kb, "not_found", 0, "No indexing task found", none, none⟩) := by
  refine ⟨?_, ?_, ?_⟩
  · intro job hj
    unfold get_index_status
    rw [hj]
  · intro hn hd
    simp [get_index_status, hn, hd]
  · intro hn hd
    simp [get_index_status, hn, hd]

/-- C7 (witness): the three reconciliation branches evaluated on concrete
states: a mid-indexing record, a directory-only state, an empty state. -/
theorem c7_status_reconciliation_witness :
    get_index_status "kb1" sIndexingExample
      = ⟨"kb1", "indexing", 0, "Indexed 1/2: a", some 2, some 1⟩
    ∧ get_index_status "kb1" sDirOnlyExample
      = ⟨"kb1", "completed", 1, "Index exists", none, none⟩
    ∧ get_index_status "kb1" initialState
      = ⟨"kb1", "not_found", 0, "No indexing task found", none, none⟩ :=
  ⟨(c7_status_reconciliation "kb1" sIndexingExample).1
      ⟨"indexing", 0, "Indexed 1/2: a", 2, 1⟩ (by decide),
   (c7_status_reconciliation "kb1" sDirOnlyExample).2.1 (by decide) (by decide),
   (c7_status_reconciliation "kb1" initialState).2.2 (by decide) (by decide)⟩

/- ===== C8 ===== -/

/-- C8: after DELETE /index/{kb_id}, the status endpoint reports not_found
(no in-memory record remains and the storage directory is gone), and a
subsequent `get_or_create_rag` takes the construction path, returning the
counter's fresh handle — never any handle that was cached before the
deletion. -/
theorem c8_delete_fresh (kb : String) (s : ServiceState)
    (hb : handlesBounded s = true) :
    (get_index_status kb (delete_index kb s).2).status = "not_found"
    ∧ lookup ((delete_index kb s).2).indexing_tasks kb = none
    ∧ lookup ((delete_index kb s).2).rag_instances kb = none
    ∧ hasDir ((delete_index kb s).2).storage_dirs (get_storage_path kb) = false
    ∧ (get_or_create_rag kb (delete_index kb s).2).1
        = ((delete_index kb s).2).nextHandle
    ∧ (∀ h0, lookup s.rag_instances kb = some h0 →
        (get_or_create_rag kb (delete_index kb s).2).1 ≠ h0) := by
  have htasks : ((delete_index kb s).2).indexing_tasks
      = removeKey s.indexing_tasks kb := by
    simp only [delete_index]
    split <;> rfl
  have hrag : ((delete_index kb s).2).rag_instances
      = removeKey s.rag_instances kb := by
    simp only [delete_index]
    split <;> rfl
  have hnext : ((delete_index kb s).2).nextHandle = s.nextHandle := by
    simp only [delete_index]
    split <;> rfl
  have hdir : hasDir ((delete_index kb s).2).storage_dirs (get_storage_path kb)
      = false := by
    simp only [delete_index]
    split
    · exact hasDir_removeDir_self _ _
    · rename_i h
      simpa using h
  have hl2 : lookup ((delete_index kb s).2).indexing_tasks kb = none := by
    rw [htasks]
    exact lookup_removeKey_self _ _
  have hl3 : lookup ((delete_index kb s).2).rag_instances kb = none := by
    rw [hrag]
    exact lookup_removeKey_self _ _
  have hfresh : (get_or_create_rag kb (delete_index kb s).2).1
      = ((delete_index kb s).2).nextHandle := by
    unfold get_or_create_rag
    rw [hl3]
  refine ⟨?_, hl2, hl3, hdir, hfresh, ?_⟩
  · simp [get_index_status, hl2, hdir]
  · intro h0 hh
    have hmem := lookup_mem hh
    have hlt : h0 < s.nextHandle := by
      have hall := List.all_eq_true.mp hb _ hmem
      simpa using hall
    rw [hfresh, hnext]
    omega

/-- C8 (witness): deleting a populated state makes status not_found and the
re-created handle differs from the previously cached one. -/
theorem c8_delete_fresh_witness :
    handlesBounded sFullExample = true
    ∧ (get_index_status "kb1" (delete_index "kb1" sFullExample).2).status
        = "not_found"
    ∧ (get_or_create_rag "kb1" (delete_index "kb1" sFullExample).2).1 ≠ 0 :=
  ⟨by decide,
   (c8_delete_fresh "kb1" sFullExample (by decide)).1,
   (c8_delete_fresh "kb1" sFullExample (by decide)).2.2.2.2.2 0 (by decide)⟩

/- ===== C2 ===== -/

lemma index_documents_task_noFail (kb : String) (docs : List Doc)
    (s0 : ServiceState) (job : IndexJob)
    (h : lookup s0.indexing_tasks kb = some job)
    (hne : ∀ d ∈ docs, docContent d ≠ "") (hd : docs ≠ []) :
    ∃ job', lookup (index_documents_task kb docs RunOutcome.noFail s0).indexing_tasks kb
        = some job'
      ∧ job'.status = "completed" ∧ job'.progress = 1
      ∧ job'.total = job.total ∧ job'.completed = docs.length := by
  have h2 : lookup (markIndexing kb s0).indexing_tasks kb =
      some { job with status := "indexing",
                      message := "Creating knowledge graph..." } := by
    unfold markIndexing
    rw [lookup_updateKey_self, h]
    rfl
  have h3 : lookup ((get_or_create_rag kb (markIndexing kb s0)).2).indexing_tasks kb =
      some { job with status := "indexing",
                      message := "Creating knowledge graph..." } := by
    rw [get_or_create_tasks_eq]
    exact h2
  obtain ⟨hexc, job', hj', hst, htot, hcomp⟩ :=
    processDocs_noFail_spec kb docs.length docs 0 _ _ h3 hne
  simp only [index_documents_task]
  rcases hp : processDocs kb docs.length RunOutcome.noFail docs 0
      ((get_or_create_rag kb (markIndexing kb s0)).2) with ⟨s3, exc⟩
  rw [hp] at hexc hj'
  dsimp only at hexc hj'
  subst hexc
  dsimp only
  refine ⟨{ job' with
      status := "completed"
      progress := 1
      message := "Successfully indexed " ++ toString docs.length ++ " documents" },
    ?_, rfl, rfl, ?_, ?_⟩
  · show lookup (updateKey s3.indexing_tasks kb _) kb = _
    rw [lookup_updateKey_self, hj']
    rfl
  · simpa using htot
  · have hie : docs.isEmpty = false := by simpa [List.isEmpty_iff] using hd
    rw [hie] at hcomp
    simp only [Bool.false_eq_true, if_false, Nat.zero_add] at hcomp
    simpa using hcomp

/-- C2 (counterexample): submitting two documents where the second has
empty content and letting the pipeline finish cleanly ends with
status = completed, progress = 1.0 and total = 2, but completed = 1, not
completed = total as the claim states. -/
theorem c2_completed_counterexample :
    (lookup c2final.indexing_tasks "kb1").map (fun j => j.status)
      = some "completed"
    ∧ (lookup c2final.indexing_tasks "kb1").map (fun j => j.progress) = some 1
    ∧ (lookup c2final.indexing_tasks "kb1").map (fun j => j.total) = some 2
    ∧ (lookup c2final.indexing_tasks "kb1").map (fun j => j.completed) = some 1
    ∧ ¬((lookup c2final.indexing_tasks "kb1").map (fun j => j.completed)
        = some 2) := by
  decide

/-- C2 (amended): for every non-empty document list accepted by POST /index,
a pipeline run that finishes without an exception leaves the job record with
status = completed, progress = 1.0 and total = the number of submitted
documents; completed = total holds provided every submitted document has
non-empty content (an empty-content document is skipped without advancing
the completed counter, so a trailing empty document leaves completed below
total). -/
theorem c2_pipeline_success (kb : String) (docs : List Doc) (s : ServiceState)
    (hsched : (index_documents kb docs s).scheduled = true)
    (hne : ∀ d ∈ docs, docContent d ≠ "") :
    ∃ job, lookup (index_documents_task kb docs RunOutcome.noFail
          (index_documents kb docs s).state).indexing_tasks kb = some job
      ∧ job.status = "completed" ∧ job.progress = 1
      ∧ job.total = docs.length ∧ job.completed = docs.length := by
  obtain ⟨hd0, htasks⟩ := index_documents_scheduled hsched
  have h1 : lookup ((index_documents kb docs s).state).indexing_tasks kb =
      some ⟨"pending", 0, "Starting indexing...", docs.length, 0⟩ := by
    rw [htasks]
    exact lookup_setKey_self _ _ _
  obtain ⟨job', hj', hst, hpr, htot, hcomp⟩ :=
    index_documents_task_noFail kb docs _ _ h1 hne hd0
  exact ⟨job', hj', hst, hpr, htot, hcomp⟩

/-- C2 (witness): two non-empty documents indexed from a fresh state end
with completed = total = 2. -/
theorem c2_pipeline_success_witness :
    ∃ job, lookup (index_documents_task "kb1"
        [⟨some "a", some "x"⟩, ⟨some "b", some "y"⟩] RunOutcome.noFail
        (index_documents "kb1" [⟨some "a", some "x"⟩, ⟨some "b", some "y"⟩]
          initialState).state).indexing_tasks "kb1" = some job
      ∧ job.status = "completed" ∧ job.progress = 1
      ∧ job.total = 2 ∧ job.completed = 2 :=
  c2_pipeline_success "kb1" [⟨some "a", some "x"⟩, ⟨some "b", some "y"⟩]
    initialState (by decide) (by decide)

/- ===== C10 ===== -/

/-- C10: if the pipeline raises — at engine acquisition or at the ainsert
of any reachable document — the job record ends with status = failed and
message = the exception's text, and everything else is preserved exactly as
it was at the point of failure: the final state is the clean prefix run's
state with only the record's status/message overwritten, so the completed
and progress fields and all already-performed ainsert effects (no rollback)
are kept. -/
theorem c10_failure_preserves_progress (kb msg : String) (documents : List Doc)
    (k : Nat) (s : ServiceState) (hk : k < documents.length)
    (hne : docContent (documents.get ⟨k, hk⟩) ≠ "") :
    index_documents_task kb documents (RunOutcome.failAcquire msg) s
      = setFailed kb msg (markIndexing kb s)
    ∧ index_documents_task kb documents (RunOutcome.failInsert k msg) s
      = setFailed kb msg (runUpTo kb documents k s)
    ∧ (index_documents_task kb documents (RunOutcome.failInsert k msg) s).events
      = (runUpTo kb documents k s).events
    ∧ lookup (index_documents_task kb documents
          (RunOutcome.failInsert k msg) s).indexing_tasks kb
      = (lookup (runUpTo kb documents k s).indexing_tasks kb).map
          (fun job => { job with status := "failed", message := msg }) := by
  have heq := processDocs_failInsert_eq kb documents.length k msg documents 0
    ((get_or_create_rag kb (markIndexing kb s)).2) (Nat.zero_le k)
    (by simpa using hk) hne
  have hmain : index_documents_task kb documents (RunOutcome.failInsert k msg) s
      = setFailed kb msg (runUpTo kb documents k s) := by
    simp only [index_documents_task]
    rw [heq]
    rfl
  refine ⟨rfl, hmain, ?_, ?_⟩
  · rw [hmain]
    rfl
  · rw [hmain]
    show lookup (updateKey (runUpTo kb documents k s).indexing_tasks kb
        (fun job => { job with status := "failed", message := msg })) kb = _
    exact lookup_updateKey_self _ _ _

/-- C10 (witness): failing the second document's ainsert on a concrete run
keeps the first document's recorded progress and flips status/message. -/
theorem c10_failure_preserves_progress_witness :
    lookup (index_documents_task "kb1"
        [⟨some "a", some "x"⟩, ⟨some "b", some "y"⟩]
        (RunOutcome.failInsert 1 "boom")
        c4pendingState).indexing_tasks "kb1"
      = (lookup (runUpTo "kb1" [⟨some "a", some "x"⟩, ⟨some "b", some "y"⟩] 1
          c4pendingState).indexing_tasks "kb1").map
          (fun job => { job with status := "failed", message := "boom" }) :=
  (c10_failure_preserves_progress "kb1" "boom"
    [⟨some "a", some "x"⟩, ⟨some "b", some "y"⟩] 1 c4pendingState
    (by decide) (by decide)).2.2.2

/- ===== C9 ===== -/

/-- C9: parsing the GraphML file yields (i) exactly one entity per distinct
non-empty node id (ids are never duplicated in the output, and an id occurs
in the output iff it is the non-empty id of some node), (ii) one relation
per edge with both endpoints, without deduplication, (iii) entity types read
under the semantic key "entity_type" or the positional code "d0",
upper-cased, defaulting to "ENTITY" when absent or empty, and relation types
defaulting to "RELATED" when absent, and (iv) on the concrete round-trip
example — 3 nodes with types a, b, b and 2 edges without usable
relation-type attributes — exactly 3 entities (types A, B, B) and 2
relations (type RELATED). -/
theorem c9_graphml_extraction :
    (∀ f : GraphMLFile,
      ((parseEntities f).map (fun e => e.id)).Nodup
      ∧ (∀ k, (k ∈ (parseEntities f).map (fun e => e.id)) ↔
          (k ≠ "" ∧ k ∈ f.nodes.map (fun n => n.id))))
    ∧ (∀ es : List GraphMLEdge,
        (parseRelations es).length =
          (es.filter (fun e => decide (e.source ≠ "" ∧ e.target ≠ ""))).length)
    ∧ parseNodeAttrs [] = ("ENTITY", "")
    ∧ parseNodeAttrs [("entity_type", some "a")] = ("A", "")
    ∧ parseNodeAttrs [("d0", some "a")] = ("A", "")
    ∧ parseNodeAttrs [("entity_type", some "")] = ("ENTITY", "")
    ∧ parseEdgeAttrs [] = ("RELATED", "")
    ∧ parseEdgeAttrs [("d2", some "uses")] = ("uses", "")
    ∧ get_graph "kb9" 100 c9store =
        ⟨"kb9",
         [⟨"n1", "n1", "A", ""⟩, ⟨"n2", "n2", "B", ""⟩, ⟨"n3", "n3", "B", "desc"⟩],
         [⟨"n1", "n2", "RELATED", ""⟩, ⟨"n2", "n3", "RELATED", ""⟩],
         none, 3, 2⟩ := by
  refine ⟨?_, parseRelations_length, by decide, by decide, by decide, by decide,
    by decide, by decide, by decide⟩
  intro f
  constructor
  · rw [parseEntities_ids]
    exact entityMap_foldl_nodup f.nodes [] (by simp)
  · intro k
    rw [parseEntities_ids]
    unfold entityMap
    rw [entityMap_foldl_mem f.nodes [] k]
    simp

end LightragService
